import Mathlib

/-!
Verification of the moac-golang-chain3-api JSON-RPC client (src/options.go).

The Go code is shallowly embedded: JSON documents are modelled as `Json`
values, HTTP bodies as rendered JSON text, the injected HTTP client as a
function from the posted body to a `PostResult`, and `encoding/json`
unmarshalling as explicit decoding functions on `Json`.  Side effects of a
call (the posted body, whether the response body was closed, the emitted
debug log line) are made observable through a `CallTrace` record returned
alongside the result.

Pieces of the repository that are referenced by src/options.go but whose
source is not under src/ (the numeric codec `IntToHex` / `ParseInt` /
`ParseBigInt`, and the `Syncing` and `Transaction` record types with their
unmarshalling) are modelled from the specification and carry a
`Modelled from the spec:` doc comment.
-/

/-- A JSON value.  `num` carries an integer: every numeric field exchanged by
this client is an integer (ids, error codes); fractional numbers never occur
in the protocol. -/
inductive Json where
  | null
  | bool (b : Bool)
  | num (n : Int)
  | str (s : String)
  | arr (elems : List Json)
  | obj (fields : List (String × Json))

/-- Escape one character of a JSON string (simplified JSON escaping: quote
and backslash). -/
def escapeChar (c : Char) : String :=
  if c = '"' then ("\\\"") else if c = '\\' then ("\\\\") else String.mk [c]

/-- Render a string as a quoted JSON string literal. -/
def renderString (s : String) : String :=
  "\"" ++ String.join (s.toList.map escapeChar) ++ "\""

mutual

/-- Serialize a JSON value to its wire text, mirroring `encoding/json`
marshalling of the values this client produces. -/
def Json.render : Json → String
  | .null => "null"
  | .bool true => "true"
  | .bool false => "false"
  | .num n => toString n
  | .str s => renderString s
  | .arr xs => "[" ++ renderElems xs ++ "]"
  | .obj fs => "\x7b" ++ renderFields fs ++ "\x7d"

/-- Comma-separated rendering of array elements. -/
def renderElems : List Json → String
  | [] => ""
  | [x] => Json.render x
  | x :: xs => Json.render x ++ "," ++ renderElems xs

/-- Comma-separated rendering of object members. -/
def renderFields : List (String × Json) → String
  | [] => ""
  | [(k, v)] => renderString k ++ ":" ++ Json.render v
  | (k, v) :: fs => renderString k ++ ":" ++ Json.render v ++ "," ++ renderFields fs

end

/-- MoacError - moac error (`type MoacError struct`): the JSON-RPC error
object with numeric code and message. -/
structure MoacError where
  Code : Int
  Message : String
deriving DecidableEq, Repr

/-- `type ethResponse struct`: the response envelope.  `Result` is the raw
`json.RawMessage` of the result field: `none` models a nil `RawMessage`
(field absent), `some j` the bytes of the JSON value `j`. -/
structure ethResponse where
  ID : Int
  JSONRPC : String
  Result : Option Json
  Error : Option MoacError

/-- `type ethRequest struct`: the request envelope. -/
structure ethRequest where
  ID : Int
  JSONRPC : String
  Method : String
  Params : List Json

/-- MoacRPC - Moacereum rpc client.  The injected `client` and `log`
collaborators are passed explicitly to the operations; only the url and the
debug flag live in the record. -/
structure MoacRPC where
  url : String
  Debug : Bool

/-- The bytes of a response body, as delivered by the transport: either bytes
that parse as the JSON value `value`, or bytes that are not valid JSON. -/
inductive Body where
  | json (value : Json)
  | invalid (raw : String)

/-- The raw text of a response body. -/
def Body.render : Body → String
  | .json j => j.render
  | .invalid raw => raw

/-- An `*http.Response`, reduced to the observable this client uses: the
outcome of `ioutil.ReadAll` on its body (a read error, or the body bytes). -/
structure HttpResponse where
  readBody : Except String Body

/-- The pair returned by `httpClient.Post`: Go returns both an `*http.Response`
(possibly nil) and an `error` (possibly nil). -/
inductive PostResult where
  | errNoResponse (err : String)
  | errWithResponse (resp : HttpResponse) (err : String)
  | ok (resp : HttpResponse)

/-- The error taxonomy of a call.  `encode` never arises in the model because
every `Json` parameter value is serializable. -/
inductive CallError where
  | transport (msg : String)
  | decode (msg : String)
  | rpc (e : MoacError)
deriving DecidableEq, Repr

/-- Observable side effects of one `Call`: the body posted to the transport,
whether `response.Body.Close` ran, and the debug log line if one was emitted. -/
structure CallTrace where
  posted : String
  bodyClosed : Bool
  logged : Option String
deriving DecidableEq, Repr

/-- The request literal built at the top of `Call`:
`ethRequest{ID: 1, JSONRPC: "2.0", Method: method, Params: params}`. -/
def buildRequest (method : String) (params : List Json) : ethRequest :=
  { ID := 1, JSONRPC := "2.0", Method := method, Params := params }

/-- `json.Marshal` of an `ethRequest`: the struct serializes to an object with
its fields in declaration order under their json tags. -/
def marshalRequest (r : ethRequest) : Json :=
  .obj [("id", .num r.ID), ("jsonrpc", .str r.JSONRPC),
        ("method", .str r.Method), ("params", .arr r.Params)]

/-- The wire body `Call` posts for a given method and parameter list. -/
def requestBody (method : String) (params : List Json) : String :=
  (marshalRequest (buildRequest method params)).render

/-- Look up a JSON object member by key; duplicate keys follow
`encoding/json` and the last occurrence wins. -/
def fieldLookup (fields : List (String × Json)) (key : String) : Option Json :=
  (fields.reverse.find? (fun p => p.1 == key)).map Prod.snd

/-- `encoding/json` unmarshalling of an (optional) object member into an `int`
field: absent or null leaves the zero value, a number is taken verbatim,
anything else is a type error. -/
def jsonToInt (v : Option Json) : Except String Int :=
  match v with
  | none => .ok 0
  | some .null => .ok 0
  | some (.num n) => .ok n
  | some _ => .error ("json: cannot unmarshal value into field of type int")

/-- `encoding/json` unmarshalling of an (optional) object member into a
`string` field: absent or null leaves the zero value. -/
def jsonToString (v : Option Json) : Except String String :=
  match v with
  | none => .ok ("")
  | some .null => .ok ("")
  | some (.str s) => .ok s
  | some _ => .error ("json: cannot unmarshal value into field of type string")

/-- Unmarshal the `error` member into the `*MoacError` field: absent or null
gives a nil pointer, an object decodes its `code` and `message` members,
anything else is a type error. -/
def unmarshalErrorField (v : Option Json) : Except String (Option MoacError) :=
  match v with
  | none => .ok none
  | some .null => .ok none
  | some (.obj fields) => do
      let code ← jsonToInt (fieldLookup fields ("code"))
      let message ← jsonToString (fieldLookup fields ("message"))
      .ok (some ⟨code, message⟩)
  | some _ => .error ("json: cannot unmarshal value into field of type MoacError")

/-- `json.Unmarshal(data, resp)` for `resp : *ethResponse`: a top-level null
is a no-op on the zero struct, a top-level object decodes the tagged fields
(the `result` member is retained raw, `json.RawMessage`), anything else is a
type error. -/
def unmarshalEthResponse (j : Json) : Except String ethResponse :=
  match j with
  | .null => .ok ⟨0, "", none, none⟩
  | .obj fields => do
      let id ← jsonToInt (fieldLookup fields ("id"))
      let jsonrpc ← jsonToString (fieldLookup fields ("jsonrpc"))
      let err ← unmarshalErrorField (fieldLookup fields ("error"))
      .ok ⟨id, jsonrpc, fieldLookup fields ("result"), err⟩
  | _ => .error ("json: cannot unmarshal value into type ethResponse")

/-- The single debug log line:
`fmt.Sprintf("%s\nRequest: %s\nResponse: %s\n", method, body, data)`. -/
def logLine (method body : String) (data : Body) : String :=
  method ++ "\nRequest: " ++ body ++ "\nResponse: " ++ data.render ++ "\n"

/-- The tail of `Call` once the response body bytes `data` have been read:
the debug log, `json.Unmarshal` into the envelope, the envelope error check,
and the return of the raw result. -/
def handleBody (rpc : MoacRPC) (method body : String) (data : Body) :
    Except CallError (Option Json) × CallTrace :=
  let logged := if rpc.Debug then some (logLine method body data) else none
  match data with
  | .invalid _ => (.error (.decode ("invalid character in response body")), ⟨body, true, logged⟩)
  | .json j =>
    match unmarshalEthResponse j with
    | .error e => (.error (.decode e), ⟨body, true, logged⟩)
    | .ok resp =>
      match resp.Error with
      | some e => (.error (.rpc e), ⟨body, true, logged⟩)
      | none => (.ok resp.Result, ⟨body, true, logged⟩)

/-- Call returns raw response of method call.  `post` is the injected
`httpClient.Post`, applied to the marshalled request body
(`json.Marshal` cannot fail on these values, so the early-return on a
marshal error is dead in the model).  The Go pair `(json.RawMessage, error)`
is rendered as an `Except`: the code always pairs a nil result with a
non-nil error and vice versa. -/
def Call (rpc : MoacRPC) (post : String → PostResult) (method : String)
    (params : List Json) : Except CallError (Option Json) × CallTrace :=
  match post (requestBody method params) with
  | .errNoResponse err =>
      -- response == nil: the deferred Close is not registered, the body is
      -- never read, and the transport error is returned unchanged
      (.error (.transport err), ⟨requestBody method params, false, none⟩)
  | .errWithResponse _ err =>
      -- response != nil registers the deferred Close, then err != nil
      -- returns before the body is read
      (.error (.transport err), ⟨requestBody method params, true, none⟩)
  | .ok resp =>
      match resp.readBody with
      | .error err =>
          -- ioutil.ReadAll failed; its error is returned unchanged
          (.error (.transport err), ⟨requestBody method params, true, none⟩)
      | .ok data => handleBody rpc method (requestBody method params) data

/-- RawCall returns raw response of method call (Deprecated). -/
def RawCall (rpc : MoacRPC) (post : String → PostResult) (method : String)
    (params : List Json) : Except CallError (Option Json) × CallTrace :=
  Call rpc post method params

/-- `rpc.call(method, target, params...)`: dispatch through `Call`, then
`json.Unmarshal(result, target)`.  `unmarshalInto` is the unmarshalling
semantics of the target's type: it receives the raw result and the current
target value and returns the updated target and an optional decode error. -/
def call {α : Type} (rpc : MoacRPC) (post : String → PostResult) (method : String)
    (unmarshalInto : Option Json → α → α × Option String) (target : α)
    (params : List Json) : (α × Option CallError) × CallTrace :=
  match Call rpc post method params with
  | (.error e, tr) => ((target, some e), tr)
  | (.ok raw, tr) =>
      (((unmarshalInto raw target).1,
        ((unmarshalInto raw target).2).map CallError.decode), tr)

/-- `json.Unmarshal(result, &s)` for a plain `string` target variable: a nil
`RawMessage` is "unexpected end of JSON input", JSON null leaves the
variable unchanged, a JSON string assigns it, anything else is a type
error. -/
def unmarshalIntoString (raw : Option Json) (s : String) : String × Option String :=
  match raw with
  | none => (s, some ("unexpected end of JSON input"))
  | some .null => (s, none)
  | some (.str v) => (v, none)
  | some _ => (s, some ("json: cannot unmarshal value into type string"))

/-- Lowercase hex digit character for a value below 16. -/
def hexDigitChar (d : Nat) : Char :=
  if d < 10 then Char.ofNat (48 + d) else Char.ofNat (87 + d)

/-- Big-endian lowercase hex digits of a natural number (at least one digit). -/
def natToHex (n : Nat) : List Char :=
  if _h : n < 16 then [hexDigitChar n]
  else natToHex (n / 16) ++ [hexDigitChar (n % 16)]
termination_by n
decreasing_by exact Nat.div_lt_self (by omega) (by omega)

/-- Modelled from the spec: `IntToHex(n)` encodes a non-negative integer as a
`0x`-prefixed lowercase hex string (the numeric codec is not under src/). -/
def IntToHex (n : Nat) : String :=
  String.mk ('0' :: 'x' :: natToHex n)

/-- Value of a hex digit character (both cases accepted), if it is one. -/
def hexCharValue (c : Char) : Option Nat :=
  if '0' ≤ c ∧ c ≤ '9' then some (c.toNat - 48)
  else if 'a' ≤ c ∧ c ≤ 'f' then some (c.toNat - 87)
  else if 'A' ≤ c ∧ c ≤ 'F' then some (c.toNat - 55)
  else none

/-- One step of hex-string accumulation; a non-digit poisons the parse. -/
def hexStep (acc : Option Nat) (c : Char) : Option Nat :=
  match acc, hexCharValue c with
  | some a, some v => some (16 * a + v)
  | _, _ => none

/-- Parse a list of hex digit characters as a big-endian natural number. -/
def parseHexDigits (cs : List Char) : Option Nat :=
  cs.foldl hexStep (some 0)

/-- Modelled from the spec: `ParseInt(hex)` decodes a `0x`-prefixed hex string
to a native (64-bit signed) integer; it fails if the string is malformed or
the value overflows the native integer width (the numeric codec is not under
src/). -/
def ParseInt (s : String) : Except String Int :=
  match s.toList with
  | '0' :: 'x' :: [] => .error ("invalid syntax")
  | '0' :: 'x' :: ds =>
    match parseHexDigits ds with
    | none => .error ("invalid syntax")
    | some v =>
      if v ≤ 9223372036854775807 then .ok (Int.ofNat v)
      else .error ("value out of range")
  | _ => .error ("invalid syntax")

/-- Modelled from the spec: `ParseBigInt(hex)` decodes a `0x`-prefixed hex
string into an arbitrary-precision integer, never truncating (the numeric
codec is not under src/). -/
def ParseBigInt (s : String) : Except String Int :=
  match s.toList with
  | '0' :: 'x' :: [] => .error ("invalid syntax")
  | '0' :: 'x' :: ds =>
    match parseHexDigits ds with
    | none => .error ("invalid syntax")
    | some v => .ok (Int.ofNat v)
  | _ => .error ("invalid syntax")

/-- NetPeerCount returns number of peers currently connected to the client. -/
def NetPeerCount (rpc : MoacRPC) (post : String → PostResult) :
    (Int × Option CallError) × CallTrace :=
  match call rpc post ("net_peerCount") unmarshalIntoString ("") [] with
  | ((_, some e), tr) => ((0, some e), tr)
  | ((response, none), tr) =>
    match ParseInt response with
    | .ok n => ((n, none), tr)
    | .error e => ((0, some (.decode e)), tr)

/-- MoacGetBalance returns the balance of the account of given address in wei. -/
def MoacGetBalance (rpc : MoacRPC) (post : String → PostResult)
    (address block : String) : (Int × Option CallError) × CallTrace :=
  match call rpc post ("mc_getBalance") unmarshalIntoString ("")
      [.str address, .str block] with
  | ((_, some e), tr) => ((0, some e), tr)
  | ((response, none), tr) =>
    match ParseBigInt response with
    | .ok v => ((v, none), tr)
    | .error e => ((0, some (.decode e)), tr)

/-- Modelled from the spec: the flat `Transaction` record mirroring the node's
JSON transaction shape (hash/addresses as strings, numeric fields arriving
as hex strings and decoded to integers on read); the type itself is not
under src/. -/
structure Transaction where
  Hash : String
  Nonce : Int
  BlockHash : String
  BlockNumber : Int
  TransactionIndex : Int
  From : String
  To : String
  Value : Int
  Gas : Int
  GasPrice : Int
  Input : String
deriving DecidableEq, Repr

/-- The zero value of `Transaction`, as produced by `new(Transaction)`. -/
def Transaction.zero : Transaction :=
  ⟨"", 0, "", 0, 0, "", "", 0, 0, 0, ""⟩

/-- Unmarshal an (optional) object member that carries a hex-encoded native
integer: absent or null leaves zero, a hex string decodes via `ParseInt`. -/
def hexIntField (fields : List (String × Json)) (key : String) : Except String Int :=
  match fieldLookup fields key with
  | none => .ok 0
  | some .null => .ok 0
  | some (.str s) => ParseInt s
  | some _ => .error ("json: cannot unmarshal value into hex int field")

/-- Unmarshal an (optional) object member that carries a hex-encoded
arbitrary-precision integer, via `ParseBigInt`. -/
def hexBigField (fields : List (String × Json)) (key : String) : Except String Int :=
  match fieldLookup fields key with
  | none => .ok 0
  | some .null => .ok 0
  | some (.str s) => ParseBigInt s
  | some _ => .error ("json: cannot unmarshal value into hex big int field")

/-- Modelled from the spec: decoding a JSON transaction object into a
`Transaction` (generic typed-decoder pattern: unmarshal the raw result,
hex numeric fields decoded via the numeric codec). -/
def transactionFromJson (j : Json) : Except String Transaction :=
  match j with
  | .obj fields => do
      let hash ← jsonToString (fieldLookup fields ("hash"))
      let nonce ← hexIntField fields ("nonce")
      let blockHash ← jsonToString (fieldLookup fields ("blockHash"))
      let blockNumber ← hexIntField fields ("blockNumber")
      let txIndex ← hexIntField fields ("transactionIndex")
      let fromAddr ← jsonToString (fieldLookup fields ("from"))
      let toAddr ← jsonToString (fieldLookup fields ("to"))
      let value ← hexBigField fields ("value")
      let gas ← hexIntField fields ("gas")
      let gasPrice ← hexBigField fields ("gasPrice")
      let input ← jsonToString (fieldLookup fields ("input"))
      .ok ⟨hash, nonce, blockHash, blockNumber, txIndex, fromAddr, toAddr,
           value, gas, gasPrice, input⟩
  | _ => .error ("json: cannot unmarshal value into type Transaction")

/-- `json.Unmarshal(result, transaction)` for `transaction : *Transaction`:
a nil `RawMessage` fails, JSON null is a no-op, and the custom decoder
assigns the record only when the whole decode succeeds (a failed decode
leaves the target untouched). -/
def unmarshalIntoTransaction (raw : Option Json) (t : Transaction) :
    Transaction × Option String :=
  match raw with
  | none => (t, some ("unexpected end of JSON input"))
  | some .null => (t, none)
  | some j =>
    match transactionFromJson j with
    | .ok t2 => (t2, none)
    | .error e => (t, some e)

/-- `getTransaction`: allocate a zero `Transaction`, dispatch, and return the
(always non-nil) pointer together with the error; `some t` models the
non-nil `*Transaction`. -/
def getTransaction (rpc : MoacRPC) (post : String → PostResult) (method : String)
    (params : List Json) : ((Option Transaction) × Option CallError) × CallTrace :=
  match call rpc post method unmarshalIntoTransaction Transaction.zero params with
  | ((t, eOpt), tr) => ((some t, eOpt), tr)

/-- MoacGetTransactionByHash returns the information about a transaction
requested by transaction hash. -/
def MoacGetTransactionByHash (rpc : MoacRPC) (post : String → PostResult)
    (hash : String) : ((Option Transaction) × Option CallError) × CallTrace :=
  getTransaction rpc post ("mc_getTransactionByHash") [.str hash]

/-- Modelled from the spec: the sync status — a single type with a boolean
discriminant plus starting/current/highest block numbers, all zero-valued
when not syncing (the type is not under src/). -/
structure Syncing where
  IsSyncing : Bool
  StartingBlock : Int
  CurrentBlock : Int
  HighestBlock : Int
deriving DecidableEq, Repr

/-- The zero value of `Syncing`, as produced by `new(Syncing)`. -/
def Syncing.zero : Syncing := ⟨false, 0, 0, 0⟩

/-- Modelled from the spec: decoding the structured sync-status object —
hex-encoded block numbers via the numeric codec, with the discriminant set
to true when a structured status decodes. -/
def syncingFromJson (j : Json) : Except String Syncing :=
  match j with
  | .obj fields => do
      let starting ← hexIntField fields ("startingBlock")
      let current ← hexIntField fields ("currentBlock")
      let highest ← hexIntField fields ("highestBlock")
      .ok ⟨true, starting, current, highest⟩
  | _ => .error ("json: cannot unmarshal value into type Syncing")

/-- `json.Unmarshal(result, syncing)` for `syncing : *Syncing`: a nil
`RawMessage` fails; a failed decode leaves the target untouched. -/
def unmarshalSyncingInto (raw : Option Json) (s : Syncing) :
    Syncing × Option String :=
  match raw with
  | none => (s, some ("unexpected end of JSON input"))
  | some .null => (s, none)
  | some j =>
    match syncingFromJson j with
    | .ok s2 => (s2, none)
    | .error e => (s, some e)

/-- The Go test `bytes.Equal(result, []byte("false"))`: the raw bytes of a
JSON value are exactly the literal `false` iff the value is the boolean
false (a nil `RawMessage` compares unequal). -/
def isFalseLiteral (raw : Option Json) : Bool :=
  match raw with
  | some (.bool false) => true
  | _ => false

/-- MoacSyncing returns an object with data about the sync status or false. -/
def MoacSyncing (rpc : MoacRPC) (post : String → PostResult) :
    ((Option Syncing) × Option CallError) × CallTrace :=
  match RawCall rpc post ("mc_syncing") [] with
  | (.error e, tr) => ((none, some e), tr)
  | (.ok raw, tr) =>
    -- syncing := new(Syncing); if bytes.Equal(result, []byte("false")) ...
    if isFalseLiteral raw then ((some Syncing.zero, none), tr)
    else
      ((some (unmarshalSyncingInto raw Syncing.zero).1,
        ((unmarshalSyncingInto raw Syncing.zero).2).map CallError.decode), tr)

/-- Moac1 returns 1 moac value (10^18 wei); `big.NewInt` is modelled by `Int`. -/
def Moac1 : Int := 1000000000000000000

/-- Alias for the free function `Moac1`, needed because inside the body of
the method `MoacRPC.Moac1` the bare name `Moac1` resolves to the method
itself. -/
def moac1FreeFunction : Int := Moac1

/-- Moac1 returns 1 moac value (10^18 wei) — the method on `MoacRPC`,
delegating to the free function. -/
def MoacRPC.Moac1 (_rpc : MoacRPC) : Int := moac1FreeFunction

/-- Which response body, if any, reaches the debug-logging point of `Call`:
the transport must have returned a non-nil response with a nil error and the
body read must have succeeded. -/
def deliveredBody (r : PostResult) : Option Body :=
  match r with
  | .errNoResponse _ => none
  | .errWithResponse _ _ => none
  | .ok resp =>
    match resp.readBody with
    | .error _ => none
    | .ok d => some d

/-- A transport whose `Post` returns a nil response and a connection error. -/
def nilRespPost : String → PostResult :=
  fun _ => .errNoResponse ("connection refused")

/-- A transport answering every request with an envelope whose error field is
populated while the result field is also present. -/
def rpcErrorPost : String → PostResult :=
  fun _ => .ok ⟨.ok (.json (.obj [("id", .num 1), ("jsonrpc", .str ("2.0")),
    ("result", .str ("0x1")),
    ("error", .obj [("code", .num (-32601)), ("message", .str ("method not found"))])]))⟩

/-- A transport answering every request with `{"id":1,"jsonrpc":"2.0","result":false}`. -/
def syncFalsePost : String → PostResult :=
  fun _ => .ok ⟨.ok (.json (.obj [("id", .num 1), ("jsonrpc", .str ("2.0")),
    ("result", .bool false)]))⟩

/-- A transport answering every request with a structured sync-status result. -/
def syncObjPost : String → PostResult :=
  fun _ => .ok ⟨.ok (.json (.obj [("id", .num 1), ("jsonrpc", .str ("2.0")),
    ("result", .obj [("startingBlock", .str ("0x1")), ("currentBlock", .str ("0x2")),
      ("highestBlock", .str ("0x3"))])]))⟩

/-- The mock balance response of the end-to-end scenario:
`{"id":1,"jsonrpc":"2.0","result":"0xde0b6b3a7640000"}`. -/
def balanceMockPost : String → PostResult :=
  fun _ => .ok ⟨.ok (.json (.obj [("id", .num 1), ("jsonrpc", .str ("2.0")),
    ("result", .str ("0xde0b6b3a7640000"))]))⟩

/-- A transport whose exchange succeeds but whose result is a malformed hex
string, so the numeric decode in the accessor fails. -/
def badHexPost : String → PostResult :=
  fun _ => .ok ⟨.ok (.json (.obj [("id", .num 1), ("jsonrpc", .str ("2.0")),
    ("result", .str ("0xzz"))]))⟩

/-- A transport whose exchange succeeds but whose result has the wrong JSON
type for a string-typed unmarshal target. -/
def wrongTypePost : String → PostResult :=
  fun _ => .ok ⟨.ok (.json (.obj [("id", .num 1), ("jsonrpc", .str ("2.0")),
    ("result", .num 5)]))⟩

lemma call_split (rpc : MoacRPC) (post : String → PostResult) (m : String)
    (ps : List Json) (r : Except CallError (Option Json))
    (h : (Call rpc post m ps).1 = r) :
    Call rpc post m ps = (r, (Call rpc post m ps).2) := by
  rw [← h]

lemma call_of_error {α : Type} (rpc : MoacRPC) (post : String → PostResult)
    (m : String) (u : Option Json → α → α × Option String) (t : α)
    (ps : List Json) (e : CallError)
    (h : (Call rpc post m ps).1 = .error e) :
    call rpc post m u t ps = ((t, some e), (Call rpc post m ps).2) := by
  unfold call
  rw [call_split rpc post m ps _ h]

lemma handleBody_posted (rpc : MoacRPC) (method body : String) (data : Body) :
    (handleBody rpc method body data).2.posted = body := by
  unfold handleBody
  cases data with
  | invalid raw => rfl
  | json j =>
    cases h : unmarshalEthResponse j with
    | error e => simp [h]
    | ok resp =>
      cases herr : resp.Error with
      | none => simp [h, herr]
      | some e => simp [h, herr]

lemma handleBody_logged (rpc : MoacRPC) (method body : String) (data : Body) :
    (handleBody rpc method body data).2.logged =
      if rpc.Debug then some (logLine method body data) else none := by
  unfold handleBody
  cases data with
  | invalid raw => rfl
  | json j =>
    cases h : unmarshalEthResponse j with
    | error e => simp [h]
    | ok resp =>
      cases herr : resp.Error with
      | none => simp [h, herr]
      | some e => simp [h, herr]

/-- C9: `RawCall(method, params...)` returns exactly the same raw result,
error, and side-effect trace as `Call(method, params...)` for every client,
transport, method and parameter list: the two entry points are
observationally equivalent. -/
theorem rawCall_eq_call (rpc : MoacRPC) (post : String → PostResult)
    (method : String) (params : List Json) :
    RawCall rpc post method params = Call rpc post method params := rfl

/-- C10: the free function `Moac1` and the method `MoacRPC.Moac1` both return
exactly 10^18 (1000000000000000000), the number of wei in one MOAC, on every
invocation. -/
theorem moac1_is_ten_pow_eighteen :
    Moac1 = 10 ^ 18 ∧ ∀ rpc : MoacRPC, rpc.Moac1 = 10 ^ 18 := by
  refine ⟨by norm_num [Moac1], fun rpc => ?_⟩
  norm_num [MoacRPC.Moac1, moac1FreeFunction, Moac1]

/-- C3: for every method name and parameter list, `Call` builds a request
whose id is the constant 1, whose jsonrpc tag is the constant "2.0", whose
method is the given method name and whose params hold exactly the given
parameters in order; the body it posts to the transport is the marshalled
form of exactly that request. -/
theorem call_builds_fixed_request (rpc : MoacRPC) (post : String → PostResult)
    (method : String) (params : List Json) :
    (buildRequest method params).ID = 1 ∧
    (buildRequest method params).JSONRPC = "2.0" ∧
    (buildRequest method params).Method = method ∧
    (buildRequest method params).Params = params ∧
    (Call rpc post method params).2.posted =
      (marshalRequest (buildRequest method params)).render := by
  refine ⟨rfl, rfl, rfl, rfl, ?_⟩
  unfold Call
  cases h : post (requestBody method params) with
  | errNoResponse e => rfl
  | errWithResponse r e => rfl
  | ok resp =>
    cases hb : resp.readBody with
    | error e => simp [hb, requestBody]
    | ok d => simp [hb, handleBody_posted, requestBody]

/-- C6: whenever the transport's `Post` returns a nil response together with a
non-nil error, `Call` returns that transport error unchanged and never
dereferences the nil response: the deferred `Body.Close` is not registered
(`bodyClosed = false`), the body is never read, and no log line is
emitted. -/
theorem call_nil_response_transport (rpc : MoacRPC) (post : String → PostResult)
    (method : String) (params : List Json) (e : String)
    (h : post (requestBody method params) = .errNoResponse e) :
    Call rpc post method params =
      (.error (.transport e), ⟨requestBody method params, false, none⟩) := by
  unfold Call
  rw [h]

/-- Witness for C6 at a concrete transport failure. -/
theorem call_nil_response_transport_witness :
    Call ⟨"http://127.0.0.1:8545", false⟩ nilRespPost ("mc_blockNumber") [] =
      (.error (.transport ("connection refused")),
       ⟨requestBody ("mc_blockNumber") [], false, none⟩) :=
  call_nil_response_transport ⟨"http://127.0.0.1:8545", false⟩ nilRespPost
    ("mc_blockNumber") [] ("connection refused") rfl

/-- C7 counterexample: with the debug flag set, a call whose transport fails
emits no log line at all — the logger is not invoked even though the debug
flag is set, refuting "the logger is invoked if and only if the debug flag
is set" and "with the debug flag set this log line is emitted regardless of
whether the call succeeds or fails". -/
theorem debug_set_but_no_log_on_transport_failure :
    (MoacRPC.mk ("http://127.0.0.1:8545") true).Debug = true ∧
    (Call (MoacRPC.mk ("http://127.0.0.1:8545") true) nilRespPost
      ("mc_blockNumber") []).2.logged = none :=
  ⟨rfl, rfl⟩

/-- C7 (amended): the logger is invoked iff the debug flag is set AND the
transport delivered a response body that was read successfully; when
invoked it emits exactly one line containing the method name, the raw
request body and the raw response body, and it is emitted regardless of
whether envelope decoding or the RPC itself subsequently fails. -/
theorem call_logging_characterization (rpc : MoacRPC) (post : String → PostResult)
    (method : String) (params : List Json) :
    (Call rpc post method params).2.logged =
      match deliveredBody (post (requestBody method params)) with
      | none => none
      | some d => if rpc.Debug then some (logLine method (requestBody method params) d)
                  else none := by
  unfold Call deliveredBody
  cases h : post (requestBody method params) with
  | errNoResponse e => rfl
  | errWithResponse r e => rfl
  | ok resp =>
    cases hb : resp.readBody with
    | error e => simp [hb]
    | ok d => simp [hb, handleBody_logged]

/-- C1: for every response body whose envelope error field is populated,
`Call` returns a nil raw result and an error equal to the RPC error carrying
the envelope's code and message — the result field is ignored even if also
present (no constraint is placed on `env.Result`) — and the generic typed
dispatch `call`, on which every typed accessor is built, propagates exactly
this error while leaving its target at its pre-call (zero) value. -/
theorem call_rpc_error_propagation {α : Type} (rpc : MoacRPC)
    (post : String → PostResult) (m : String) (ps : List Json) (j : Json)
    (env : ethResponse) (e : MoacError)
    (hpost : post (requestBody m ps) = .ok ⟨.ok (.json j)⟩)
    (henv : unmarshalEthResponse j = .ok env)
    (herr : env.Error = some e)
    (unmarshalInto : Option Json → α → α × Option String) (target : α) :
    (Call rpc post m ps).1 = .error (.rpc e) ∧
    (call rpc post m unmarshalInto target ps).1 = (target, some (.rpc e)) := by
  have hc : (Call rpc post m ps).1 = .error (.rpc e) := by
    unfold Call
    rw [hpost]
    simp [handleBody, henv, herr]
  refine ⟨hc, ?_⟩
  rw [call_of_error rpc post m unmarshalInto target ps _ hc]

/-- Witness for C1: a concrete envelope carrying both a populated error field
and a result field. -/
theorem call_rpc_error_propagation_witness :
    (Call ⟨"http://127.0.0.1:8545", false⟩ rpcErrorPost ("mc_blockNumber") []).1 =
      .error (.rpc ⟨-32601, "method not found"⟩) ∧
    (call ⟨"http://127.0.0.1:8545", false⟩ rpcErrorPost ("mc_blockNumber")
        unmarshalIntoString ("") []).1 = ("", some (.rpc ⟨-32601, "method not found"⟩)) :=
  call_rpc_error_propagation ⟨"http://127.0.0.1:8545", false⟩ rpcErrorPost
    ("mc_blockNumber") []
    (.obj [("id", .num 1), ("jsonrpc", .str ("2.0")), ("result", .str ("0x1")),
      ("error", .obj [("code", .num (-32601)), ("message", .str ("method not found"))])])
    ⟨1, "2.0", some (.str ("0x1")), some ⟨-32601, "method not found"⟩⟩
    ⟨-32601, "method not found"⟩ rfl rfl rfl unmarshalIntoString ("")

/-- C2: if the raw result is byte-for-byte the literal `false` (the JSON
boolean false), `MoacSyncing` returns the zero-valued "not syncing" status
(discriminant false, all block numbers zero) and no error; for any other raw
result it unmarshals the bytes as the structured `Syncing` object (in
particular, a successfully decoded structured status is returned verbatim
with no error). -/
theorem moacSyncing_false_or_structured (rpc : MoacRPC) (post : String → PostResult) :
    ((Call rpc post ("mc_syncing") []).1 = .ok (some (.bool false)) →
      (MoacSyncing rpc post).1 = (some ⟨false, 0, 0, 0⟩, none)) ∧
    (∀ raw, (Call rpc post ("mc_syncing") []).1 = .ok raw →
      isFalseLiteral raw = false →
      (MoacSyncing rpc post).1 =
        (some (unmarshalSyncingInto raw Syncing.zero).1,
         ((unmarshalSyncingInto raw Syncing.zero).2).map CallError.decode)) := by
  constructor
  · intro h
    unfold MoacSyncing RawCall
    rw [call_split rpc post ("mc_syncing") [] _ h]
    rfl
  · intro raw h hlit
    unfold MoacSyncing RawCall
    rw [call_split rpc post ("mc_syncing") [] _ h]
    simp [hlit]

/-- Witness for C2: the literal-false body yields the zero-valued status, and
a structured body yields the decoded status. -/
theorem moacSyncing_false_or_structured_witness :
    (MoacSyncing ⟨"http://127.0.0.1:8545", false⟩ syncFalsePost).1 =
      (some ⟨false, 0, 0, 0⟩, none) ∧
    (MoacSyncing ⟨"http://127.0.0.1:8545", false⟩ syncObjPost).1 =
      (some ⟨true, 1, 2, 3⟩, none) := by
  constructor
  · exact (moacSyncing_false_or_structured ⟨"http://127.0.0.1:8545", false⟩
      syncFalsePost).1 (by rfl)
  · exact ((moacSyncing_false_or_structured ⟨"http://127.0.0.1:8545", false⟩
      syncObjPost).2
      (some (.obj [("startingBlock", .str ("0x1")), ("currentBlock", .str ("0x2")),
        ("highestBlock", .str ("0x3"))]))
      (by rfl) (by rfl)).trans (by rfl)

/-- C4 counterexample: on a failing call, the accessor
`MoacGetTransactionByHash` does **not** return the zero value of its result
type `*Transaction` (which is the nil pointer): it returns a non-nil pointer
to a zero-valued record alongside the non-nil error. -/
theorem getTransaction_nonNil_pointer_on_failure :
    ((MoacGetTransactionByHash ⟨"http://127.0.0.1:8545", false⟩ nilRespPost
        ("0xabc")).1).1 = some Transaction.zero ∧
    some Transaction.zero ≠ (none : Option Transaction) ∧
    ((MoacGetTransactionByHash ⟨"http://127.0.0.1:8545", false⟩ nilRespPost
        ("0xabc")).1).2 = some (.transport ("connection refused")) :=
  ⟨rfl, by simp, rfl⟩

lemma call_of_ok {α : Type} (rpc : MoacRPC) (post : String → PostResult)
    (m : String) (u : Option Json → α → α × Option String) (t : α)
    (ps : List Json) (raw : Option Json)
    (h : (Call rpc post m ps).1 = .ok raw) :
    call rpc post m u t ps =
      (((u raw t).1, ((u raw t).2).map CallError.decode), (Call rpc post m ps).2) := by
  unfold call
  rw [call_split rpc post m ps _ h]

lemma unmarshalIntoTransaction_untouched (raw : Option Json) (t : Transaction)
    (h : ((unmarshalIntoTransaction raw t).2).isSome = true) :
    (unmarshalIntoTransaction raw t).1 = t := by
  unfold unmarshalIntoTransaction at h ⊢
  cases raw with
  | none => rfl
  | some j =>
    cases j with
    | null => simp at h
    | bool b => cases htx : transactionFromJson (.bool b) <;> simp [htx] at h ⊢
    | num n => cases htx : transactionFromJson (.num n) <;> simp [htx] at h ⊢
    | str s => cases htx : transactionFromJson (.str s) <;> simp [htx] at h ⊢
    | arr xs => cases htx : transactionFromJson (.arr xs) <;> simp [htx] at h ⊢
    | obj fs => cases htx : transactionFromJson (.obj fs) <;> simp [htx] at h ⊢

lemma call_target_untouched {α : Type} (rpc : MoacRPC) (post : String → PostResult)
    (m : String) (u : Option Json → α → α × Option String) (t : α) (ps : List Json)
    (hu : ∀ raw, ((u raw t).2).isSome = true → (u raw t).1 = t)
    (h : (((call rpc post m u t ps).1).2).isSome = true) :
    ((call rpc post m u t ps).1).1 = t := by
  cases hC : (Call rpc post m ps).1 with
  | error e =>
    rw [call_of_error rpc post m u t ps e hC]
  | ok raw =>
    rw [call_of_ok rpc post m u t ps raw hC] at h ⊢
    cases hu2 : (u raw t).2 with
    | none => rw [hu2] at h; simp at h
    | some e => exact hu raw (by rw [hu2]; rfl)

/-- C4 (amended): a failing call never yields data decoded from the failed
exchange.  When the dispatcher itself fails, each accessor returns the
dispatcher's error unchanged next to a zero result; and whenever an accessor
returns any non-nil error at all — transport failure, envelope decode
failure, RPC error, result-unmarshal failure, or numeric decode failure in
`ParseInt`/`ParseBigInt` — the value-typed accessors (`NetPeerCount`,
`MoacGetBalance`) return the zero value of their result type, while the
pointer-returning `getTransaction` returns a non-nil pointer to the
zero-valued `Transaction` (not the nil pointer that is the zero value of its
`*Transaction` result type); a failing transaction decode leaves the target
record untouched, so no partially populated result ever accompanies an
error. -/
theorem accessors_return_zero_on_failure (rpc : MoacRPC) (post : String → PostResult) :
    (∀ e, (Call rpc post ("net_peerCount") []).1 = .error e →
      (NetPeerCount rpc post).1 = (0, some e)) ∧
    (∀ e addr blk, (Call rpc post ("mc_getBalance") [.str addr, .str blk]).1 = .error e →
      (MoacGetBalance rpc post addr blk).1 = (0, some e)) ∧
    (∀ e m ps, (Call rpc post m ps).1 = .error e →
      (getTransaction rpc post m ps).1 = (some Transaction.zero, some e)) ∧
    ((((NetPeerCount rpc post).1).2).isSome = true →
      ((NetPeerCount rpc post).1).1 = 0) ∧
    (∀ addr blk, (((MoacGetBalance rpc post addr blk).1).2).isSome = true →
      ((MoacGetBalance rpc post addr blk).1).1 = 0) ∧
    (∀ m ps, (((getTransaction rpc post m ps).1).2).isSome = true →
      ((getTransaction rpc post m ps).1).1 = some Transaction.zero) ∧
    (∀ raw t, ((unmarshalIntoTransaction raw t).2).isSome = true →
      (unmarshalIntoTransaction raw t).1 = t) := by
  refine ⟨?_, ?_, ?_, ?_, ?_, ?_,
    fun raw t h => unmarshalIntoTransaction_untouched raw t h⟩
  · intro e h
    unfold NetPeerCount
    rw [call_of_error rpc post ("net_peerCount") unmarshalIntoString ("") [] e h]
  · intro e addr blk h
    unfold MoacGetBalance
    rw [call_of_error rpc post ("mc_getBalance") unmarshalIntoString ("")
      [.str addr, .str blk] e h]
  · intro e m ps h
    unfold getTransaction
    rw [call_of_error rpc post m unmarshalIntoTransaction Transaction.zero ps e h]
  · intro h
    unfold NetPeerCount at h ⊢
    rcases hcall : call rpc post ("net_peerCount") unmarshalIntoString ("") []
      with ⟨⟨v, eOpt⟩, tr⟩
    rw [hcall] at h
    cases eOpt with
    | some e => rfl
    | none =>
      have h2 : (match ParseInt v with
          | Except.ok n => ((n, (none : Option CallError)), tr)
          | Except.error e => (((0 : Int), some (CallError.decode e)), tr)).1.2.isSome
            = true := h
      cases hp : ParseInt v with
      | ok n => rw [hp] at h2; simp at h2
      | error e =>
        show (match ParseInt v with
          | Except.ok n => ((n, (none : Option CallError)), tr)
          | Except.error e => (((0 : Int), some (CallError.decode e)), tr)).1.1 = (0 : Int)
        rw [hp]
  · intro addr blk h
    unfold MoacGetBalance at h ⊢
    rcases hcall : call rpc post ("mc_getBalance") unmarshalIntoString ("")
      [.str addr, .str blk] with ⟨⟨v, eOpt⟩, tr⟩
    rw [hcall] at h
    cases eOpt with
    | some e => rfl
    | none =>
      have h2 : (match ParseBigInt v with
          | Except.ok n => ((n, (none : Option CallError)), tr)
          | Except.error e => (((0 : Int), some (CallError.decode e)), tr)).1.2.isSome
            = true := h
      cases hp : ParseBigInt v with
      | ok n => rw [hp] at h2; simp at h2
      | error e =>
        show (match ParseBigInt v with
          | Except.ok n => ((n, (none : Option CallError)), tr)
          | Except.error e => (((0 : Int), some (CallError.decode e)), tr)).1.1 = (0 : Int)
        rw [hp]
  · intro m ps h
    have h2 : (((call rpc post m unmarshalIntoTransaction Transaction.zero ps).1).2).isSome
        = true := h
    have h3 := call_target_untouched rpc post m unmarshalIntoTransaction
      Transaction.zero ps
      (fun raw hr => unmarshalIntoTransaction_untouched raw Transaction.zero hr) h2
    show some ((call rpc post m unmarshalIntoTransaction Transaction.zero ps).1).1 =
      some Transaction.zero
    rw [h3]

/-- Witness for C4 (amended): concrete failing calls — a transport failure,
and decode failures after a successful exchange (malformed hex in the
numeric decode, result of the wrong JSON type, failing transaction
decode). -/
theorem accessors_return_zero_on_failure_witness :
    (NetPeerCount ⟨"http://127.0.0.1:8545", false⟩ nilRespPost).1 =
      (0, some (.transport ("connection refused"))) ∧
    (MoacGetBalance ⟨"http://127.0.0.1:8545", false⟩ nilRespPost
        ("0xa") ("latest")).1 = (0, some (.transport ("connection refused"))) ∧
    (getTransaction ⟨"http://127.0.0.1:8545", false⟩ nilRespPost
        ("mc_getTransactionByHash") [.str ("0x1")]).1 =
      (some Transaction.zero, some (.transport ("connection refused"))) ∧
    ((NetPeerCount ⟨"http://127.0.0.1:8545", false⟩ badHexPost).1).1 = 0 ∧
    ((MoacGetBalance ⟨"http://127.0.0.1:8545", false⟩ badHexPost
        ("0xa") ("latest")).1).1 = 0 ∧
    ((NetPeerCount ⟨"http://127.0.0.1:8545", false⟩ wrongTypePost).1).1 = 0 ∧
    ((getTransaction ⟨"http://127.0.0.1:8545", false⟩ badHexPost
        ("mc_getTransactionByHash") [.str ("0x1")]).1).1 = some Transaction.zero := by
  refine ⟨?_, ?_, ?_, ?_, ?_, ?_, ?_⟩
  · exact (accessors_return_zero_on_failure ⟨"http://127.0.0.1:8545", false⟩
      nilRespPost).1 _ rfl
  · exact (accessors_return_zero_on_failure ⟨"http://127.0.0.1:8545", false⟩
      nilRespPost).2.1 _ ("0xa") ("latest") rfl
  · exact (accessors_return_zero_on_failure ⟨"http://127.0.0.1:8545", false⟩
      nilRespPost).2.2.1 _ ("mc_getTransactionByHash") [.str ("0x1")] rfl
  · exact (accessors_return_zero_on_failure ⟨"http://127.0.0.1:8545", false⟩
      badHexPost).2.2.2.1 (by rfl)
  · exact (accessors_return_zero_on_failure ⟨"http://127.0.0.1:8545", false⟩
      badHexPost).2.2.2.2.1 ("0xa") ("latest") (by rfl)
  · exact (accessors_return_zero_on_failure ⟨"http://127.0.0.1:8545", false⟩
      wrongTypePost).2.2.2.1 (by rfl)
  · exact (accessors_return_zero_on_failure ⟨"http://127.0.0.1:8545", false⟩
      badHexPost).2.2.2.2.2.1 ("mc_getTransactionByHash") [.str ("0x1")] (by rfl)

/-- C5: `MoacGetBalance(address, block)` posts a request with method
`mc_getBalance` and params `[address, block]` in that order, and given the
mock response `{"id":1,"jsonrpc":"2.0","result":"0xde0b6b3a7640000"}` it
returns the big integer 1000000000000000000 (1 MOAC) and no error. -/
theorem moacGetBalance_end_to_end (rpc : MoacRPC) (address block : String) :
    (MoacGetBalance rpc balanceMockPost address block).2.posted =
      requestBody ("mc_getBalance") [.str address, .str block] ∧
    (MoacGetBalance rpc balanceMockPost address block).1 =
      (1000000000000000000, none) := by
  obtain ⟨u, d⟩ := rpc
  cases d <;> exact ⟨rfl, rfl⟩

lemma hexCharValue_hexDigitChar : ∀ d < 16, hexCharValue (hexDigitChar d) = some d := by
  decide

lemma natToHex_ne_nil (n : Nat) : natToHex n ≠ [] := by
  unfold natToHex
  split <;> simp

lemma foldl_hexStep_natToHex :
    ∀ n a, List.foldl hexStep (some a) (natToHex n) =
      some (a * 16 ^ (natToHex n).length + n) := by
  intro n
  induction n using Nat.strong_induction_on with
  | _ n ih =>
    intro a
    by_cases h : n < 16
    · unfold natToHex
      rw [dif_pos h]
      simp [hexStep, hexCharValue_hexDigitChar n h]
      ring
    · unfold natToHex
      rw [dif_neg h]
      rw [List.foldl_append]
      rw [ih (n / 16) (Nat.div_lt_self (by omega) (by omega)) a]
      have hmod : n % 16 < 16 := Nat.mod_lt n (by omega)
      simp [hexStep, hexCharValue_hexDigitChar (n % 16) hmod, List.length_append]
      rw [pow_succ]
      have hdm : 16 * (n / 16) + n % 16 = n := Nat.div_add_mod n 16
      calc 16 * (a * 16 ^ (natToHex (n / 16)).length + n / 16) + n % 16
          = a * (16 ^ (natToHex (n / 16)).length * 16) + (16 * (n / 16) + n % 16) := by
            ring
        _ = a * (16 ^ (natToHex (n / 16)).length * 16) + n := by rw [hdm]

lemma parseHexDigits_natToHex (n : Nat) : parseHexDigits (natToHex n) = some n := by
  have h := foldl_hexStep_natToHex n 0
  simpa [parseHexDigits] using h

/-- C8: the numeric codec's encode and decode are mutually inverse on
non-negative native (64-bit) integers: for every n below 2^63,
`ParseInt(IntToHex(n))` succeeds and returns n. -/
theorem parseInt_intToHex_roundtrip (n : Nat) (h : n < 2 ^ 63) :
    ParseInt (IntToHex n) = .ok (Int.ofNat n) := by
  have hx : (IntToHex n).toList = '0' :: 'x' :: natToHex n := rfl
  unfold ParseInt
  rw [hx]
  cases hnt : natToHex n with
  | nil => exact absurd hnt (natToHex_ne_nil n)
  | cons c cs =>
    have hp : parseHexDigits (c :: cs) = some n := by
      rw [← hnt]
      exact parseHexDigits_natToHex n
    have hle : n ≤ 9223372036854775807 := by
      have h63 : (2 : Nat) ^ 63 = 9223372036854775808 := by norm_num
      omega
    simp [hp, hle]

/-- Witness for C8 at a concrete native integer. -/
theorem parseInt_intToHex_roundtrip_witness :
    ParseInt (IntToHex 1000000000000000000) = .ok (Int.ofNat 1000000000000000000) :=
  parseInt_intToHex_roundtrip 1000000000000000000 (by norm_num)
